import Mathlib

/-!
Verification of the multi-server tool-routing / ReAct agent repository.

The Lean definitions below are shallow embeddings of the Python sources:
  * `Json`, `Json.serialize`, `parseJson` — model of the `json` module usage
    (`json.dumps` / `json.loads`) at the adapter boundaries.  Numbers are
    modelled as integers (the repository's tool arguments are parsed JSON);
    strings escape the characters the serializer emits (`\"`, `\\`, `\n`,
    `\t`, `\r`), other characters pass through verbatim.
  * `MCPServerConnection`, `MultiMCPClient` — lesson_5
    `src/clients/multi_mcp_client.py`.
  * `mcpToolResponseToText` — lesson_2 `mcp_tool_response_to_text`.
  * `OllamaClient.convertToolCalls`, `resolveOllamaContent` — lesson_5
    `src/clients/ollama_client.py` (`_convert_tool_calls`,
    `_to_openai_format`).
  * `lesson2Loop` — lesson_2 `Agent.run`; `lesson1Run` — lesson_1 `Agent.run`.
  * `checkCacheClassify` — lesson_6 `02_langgraph/graph.py` `CheckCacheNode`.
-/

/-- JSON values as produced/consumed by `json.dumps` / `json.loads` at the
tool-argument boundary.  Strings are kept as character lists to ease
reasoning about escaping. -/
inductive Json where
  | null : Json
  | bool (b : Bool) : Json
  | num (n : Int) : Json
  | str (s : List Char) : Json
  | arr (elems : List Json) : Json
  | obj (fields : List (List Char × Json)) : Json

namespace Json

/-- One character of a JSON string literal, escaped the way the serializer
emits it. -/
def escapeChar (c : Char) : List Char :=
  if c = '\"' then ['\\', '\"']
  else if c = '\\' then ['\\', '\\']
  else if c = '\n' then ['\\', 'n']
  else if c = '\t' then ['\\', 't']
  else if c = '\r' then ['\\', 'r']
  else [c]

/-- Body of a JSON string literal. -/
def escapeString (s : List Char) : List Char := (s.map escapeChar).flatten

/-- A complete JSON string literal, quotes included. -/
def serializeKey (k : List Char) : List Char := '\"' :: escapeString k ++ ['\"']

/-- Decimal digits of a natural number, most significant first. -/
def natToChars (n : Nat) : List Char :=
  if n = 0 then ['0'] else ((Nat.digits 10 n).map Nat.digitChar).reverse

/-- Decimal representation of an integer. -/
def intToChars (n : Int) : List Char :=
  if n < 0 then '-' :: natToChars n.natAbs else natToChars n.natAbs

mutual

/-- `json.dumps` with its default separators `", "` and `": "`. -/
def serialize : Json → List Char
  | .null => "null".data
  | .bool true => "true".data
  | .bool false => "false".data
  | .num n => intToChars n
  | .str s => serializeKey s
  | .arr l => '[' :: serializeItems l ++ [']']
  | .obj fs => '\x7b' :: serializeFields fs ++ ['\x7d']

/-- Array elements, `", "`-separated. -/
def serializeItems : List Json → List Char
  | [] => []
  | [v] => serialize v
  | v :: vs => serialize v ++ ',' :: ' ' :: serializeItems vs

/-- Object members, `", "`-separated, `": "` between key and value. -/
def serializeFields : List (List Char × Json) → List Char
  | [] => []
  | [(k, v)] => serializeKey k ++ ':' :: ' ' :: serialize v
  | (k, v) :: fs => serializeKey k ++ ':' :: ' ' :: serialize v ++ ',' :: ' ' :: serializeFields fs

end

/-- `json.dumps` producing a Lean `String`. -/
def dumps (j : Json) : String := String.mk (serialize j)

/-- JSON insignificant whitespace. -/
def isWsChar (c : Char) : Bool := c = ' ' || c = '\n' || c = '\t' || c = '\r'

/-- Skip insignificant whitespace. -/
def skipWs (s : List Char) : List Char := s.dropWhile isWsChar

/-- Decode one escape character of a string literal. -/
def unescapeChar (e : Char) : Option Char :=
  if e = '\"' then some '\"'
  else if e = '\\' then some '\\'
  else if e = 'n' then some '\n'
  else if e = 't' then some '\t'
  else if e = 'r' then some '\r'
  else none

/-- Parse the rest of a string literal (opening quote already consumed),
returning the decoded characters and the input after the closing quote. -/
def parseStrRest : List Char → Option (List Char × List Char)
  | [] => none
  | c :: r =>
    if c = '\"' then some ([], r)
    else if c = '\\' then
      match r with
      | [] => none
      | e :: r2 =>
        match unescapeChar e with
        | some c2 =>
          match parseStrRest r2 with
          | some (s, r3) => some (c2 :: s, r3)
          | none => none
        | none => none
    else
      match parseStrRest r with
      | some (s, r2) => some (c :: s, r2)
      | none => none

/-- Parse a nonempty run of decimal digits into a natural number. -/
def parseNatChars (s : List Char) : Option (Nat × List Char) :=
  let ds := s.takeWhile Char.isDigit
  if ds = [] then none
  else some (ds.foldl (fun a c => a * 10 + (c.toNat - 48)) 0, s.dropWhile Char.isDigit)

/-- Parse a JSON number (integer form). -/
def parseNum (s : List Char) : Option (Json × List Char) :=
  match s with
  | [] => none
  | c :: r =>
    if c = '-' then
      match parseNatChars r with
      | some (n, r2) => some (.num (-(n : Int)), r2)
      | none => none
    else
      match parseNatChars (c :: r) with
      | some (n, r2) => some (.num ((n : Int)), r2)
      | none => none

mutual

/-- Parse one JSON value (fuel-indexed recursive descent, as `json.loads`
accepts the serializer's output). -/
def parseVal : Nat → List Char → Option (Json × List Char)
  | 0, _ => none
  | f + 1, s =>
    match skipWs s with
    | [] => none
    | c :: r =>
      if c = 'n' then
        if r.take 3 = ['u', 'l', 'l'] then some (.null, r.drop 3) else none
      else if c = 't' then
        if r.take 3 = ['r', 'u', 'e'] then some (.bool true, r.drop 3) else none
      else if c = 'f' then
        if r.take 4 = ['a', 'l', 's', 'e'] then some (.bool false, r.drop 4) else none
      else if c = '\"' then
        match parseStrRest r with
        | some (cs, r2) => some (.str cs, r2)
        | none => none
      else if c = '[' then
        match parseArrItems f (skipWs r) with
        | some (l, r2) => some (.arr l, r2)
        | none => none
      else if c = '\x7b' then
        match parseObjItems f (skipWs r) with
        | some (fs, r2) => some (.obj fs, r2)
        | none => none
      else if c = '-' ∨ c.isDigit then parseNum (c :: r)
      else none

/-- Parse array elements up to and including the closing bracket. -/
def parseArrItems : Nat → List Char → Option (List Json × List Char)
  | 0, _ => none
  | f + 1, s =>
    match s with
    | [] => none
    | c :: r =>
      if c = ']' then some ([], r)
      else
        match parseVal f s with
        | some (v, r1) =>
          match skipWs r1 with
          | ',' :: r2 =>
            (match parseArrItems f (skipWs r2) with
             | some (vs, r3) => some (v :: vs, r3)
             | none => none)
          | ']' :: r2 => some ([v], r2)
          | _ => none
        | none => none

/-- Parse object members up to and including the closing brace. -/
def parseObjItems : Nat → List Char → Option (List (List Char × Json) × List Char)
  | 0, _ => none
  | f + 1, s =>
    match s with
    | [] => none
    | c :: r =>
      if c = '\x7d' then some ([], r)
      else if c = '\"' then
        match parseStrRest r with
        | some (k, r1) =>
          match skipWs r1 with
          | ':' :: r2 =>
            (match parseVal f (skipWs r2) with
             | some (v, r3) =>
               match skipWs r3 with
               | ',' :: r4 =>
                 (match parseObjItems f (skipWs r4) with
                  | some (fs, r5) => some ((k, v) :: fs, r5)
                  | none => none)
               | '\x7d' :: r4 => some ([(k, v)], r4)
               | _ => none
             | none => none)
          | _ => none
        | none => none
      else none

end

/-- `json.loads` on a character list: parse one value, then require only
trailing whitespace. -/
def parseJson (s : List Char) : Option Json :=
  match parseVal (s.length + 1) s with
  | some (v, r) => if skipWs r = [] then some v else none
  | none => none

/-- `json.loads` on a Lean `String`. -/
def loads (s : String) : Option Json := parseJson s.data

/-- The next character, if any, is not a digit (so a number parse cannot
run past its serialized digits). -/
def noDigitStart : List Char → Bool
  | [] => true
  | c :: _ => !c.isDigit

/-- Characters that can begin a serialized JSON value. -/
def valStart (c : Char) : Bool :=
  c = 'n' || c = 't' || c = 'f' || c = '\"' || c = '[' || c = '\x7b' || c = '-' || c.isDigit

end Json

/-!
## Model of `lesson_5/src/clients/multi_mcp_client.py`

A `SourceSpec` describes one configured server together with the outcome the
external world produces for its `connect()` (`ok = false` models
`MCPServerConnection.connect` raising during the handshake, before a session
is established; in that case `tools` stays empty and `_connected` stays
false).  Python `dict` state is modelled by insertion-ordered association
lists with overwrite-in-place semantics (`dictInsert`).
-/

/-- State of one `MCPServerConnection` after construction/connect/disconnect:
`connected` is `_connected`, `sessionLive` is `session is not None`. -/
structure MCPServerConnection where
  name : String
  tools : List String
  connected : Bool
  sessionLive : Bool

/-- One configured server of `MultiMCPClient.__init__` plus the outcome of
its `connect()` handshake (`ok`) and the tool names `list_tools` reports. -/
structure SourceSpec where
  name : String
  ok : Bool
  tools : List String

/-- Python dict assignment `d[k] = v`: overwrite in place, else append. -/
def dictInsert (k v : String) : List (String × String) → List (String × String)
  | [] => [(k, v)]
  | (k2, v2) :: rest => if k2 = k then (k, v) :: rest else (k2, v2) :: dictInsert k v rest

/-- Python dict lookup `d.get(k)`. -/
def dictGet (k : String) : List (String × String) → Option String
  | [] => none
  | (k2, v2) :: rest => if k2 = k then some v2 else dictGet k rest

/-- Router state: `self.connections` (insertion order of the `servers` dict)
and `self._tool_to_server` (tool name → owning server name; the Python dict
stores the connection object, which is identified by its unique name in
`self.connections`). -/
structure MultiMCPClient where
  connections : List MCPServerConnection
  toolToServer : List (String × String)

/-- The `MCPServerConnection` resulting from one `conn.connect()` attempt. -/
def connResult (s : SourceSpec) : MCPServerConnection :=
  { name := s.name, tools := if s.ok then s.tools else [],
    connected := s.ok, sessionLive := s.ok }

/-- `for tool_name in conn.tools: self._tool_to_server[tool_name] = conn`. -/
def registerTools (sname : String) (tools : List String)
    (reg : List (String × String)) : List (String × String) :=
  tools.foldl (fun r t => dictInsert t sname r) reg

/-- The `_tool_to_server` dict built by `MultiMCPClient.connect`: sources in
configuration order, failed sources skipped, each tool assignment
overwriting any earlier entry of the same name. -/
def buildRegistry (specs : List SourceSpec) : List (String × String) :=
  specs.foldl (fun reg s => if s.ok then registerTools s.name s.tools reg else reg) []

/-- Router state after `MultiMCPClient.connect` ran over all sources
(before the empty-registry check). -/
def buildState (specs : List SourceSpec) : MultiMCPClient :=
  { connections := specs.map connResult, toolToServer := buildRegistry specs }

/-- `MultiMCPClient.connect`: raises `RuntimeError` exactly when
`_tool_to_server` ended up empty. -/
def MultiMCPClient.connect (specs : List SourceSpec) : Except String MultiMCPClient :=
  let st := buildState specs
  if st.toolToServer = [] then .error "Failed to connect to any MCP server" else .ok st

/-- `MultiMCPClient.disconnect`: calls `conn.disconnect()` on every connected
connection, which clears its session and `_connected`; `_tool_to_server` is
not touched. -/
def MultiMCPClient.disconnect (st : MultiMCPClient) : MultiMCPClient :=
  { st with
    connections := st.connections.map fun c =>
      if c.connected then { c with connected := false, sessionLive := false } else c }

/-- Whether the connection object named `sname` currently has a live session
(`conn.session` is not `None`). -/
def MultiMCPClient.sessionOf (st : MultiMCPClient) (sname : String) : Bool :=
  match st.connections.find? (fun c => c.name = sname) with
  | some c => c.sessionLive
  | none => false

/-- Whether the connection object named `sname` is marked `_connected`. -/
def MultiMCPClient.connectedOf (st : MultiMCPClient) (sname : String) : Bool :=
  match st.connections.find? (fun c => c.name = sname) with
  | some c => c.connected
  | none => false

/-- One part of an MCP tool-call response's `content` list: either a
`TextContent` (has a `.text` attribute) or some other part, carried with its
`str(...)` rendering. -/
inductive ContentPart where
  | text (s : String)
  | other (rendered : String)

/-- `hasattr(content, "text")` extraction used by lesson_5's `call_tool`. -/
def ContentPart.asText : ContentPart → Option String
  | .text s => some s
  | .other _ => none

/-- `p.text if p.text is not None else str(p)` used by lesson_2's converter. -/
def ContentPart.toStr : ContentPart → String
  | .text s => s
  | .other rendered => rendered

/-- An MCP `call_tool` response: optional `structuredContent` plus the
ordered `content` parts. -/
structure ToolResponse where
  structuredContent : Option Json
  content : List ContentPart

/-- `MultiMCPClient.call_tool`: look up the owning connection in
`_tool_to_server`; unknown tool and dead-session cases return error strings;
otherwise the remote call's outcome (`remote`, an exception or a response)
is flattened to text — only parts with a `.text` attribute are joined. -/
def MultiMCPClient.callTool (st : MultiMCPClient) (toolName : String)
    (remote : Except String ToolResponse) : String :=
  match dictGet toolName st.toolToServer with
  | none => "Error: Tool '" ++ toolName ++ "' not found on any connected server"
  | some sname =>
    if st.sessionOf sname = false then
      "Error: Server '" ++ sname ++ "' is not connected"
    else
      match remote with
      | .error e =>
        "Error calling tool '" ++ toolName ++ "' on server '" ++ sname ++ "': " ++ e
      | .ok resp =>
        if resp.content.isEmpty then "No response content"
        else String.intercalate "\n" (resp.content.filterMap ContentPart.asText)

/-- The owner the amended collision policy predicts: the last source in
configuration order that connected successfully and lists the tool. -/
def lastOwner (specs : List SourceSpec) (t : String) : Option String :=
  match specs with
  | [] => none
  | s :: rest =>
    match lastOwner rest t with
    | some n => some n
    | none => if s.ok ∧ t ∈ s.tools then some s.name else none

/-- The two-source collision example of the specification: source 1 registers
a and b, source 2 registers b and c, source 1 connects first. -/
def demoSpecs : List SourceSpec :=
  [⟨"s1", true, ["a", "b"]⟩, ⟨"s2", true, ["b", "c"]⟩]

/-- `mcp_tool_response_to_text` of `lesson_2/main.py`: prefer
`structuredContent` (serialized as JSON), else join the stringified parts
with newlines, else the empty string. -/
def mcpToolResponseToText (resp : ToolResponse) : String :=
  match resp.structuredContent with
  | some sc => Json.dumps sc
  | none =>
    let parts := resp.content.map ContentPart.toStr
    if parts.isEmpty then "" else String.intercalate "\n" parts

/-!
## Model of the LLM call adapter
(`lesson_5/src/clients/ollama_client.py`, `_to_openai_format` and
`_convert_tool_calls`; `llm_client.py` `_convert_ollama_to_openai` has the
same content/thinking logic).
-/

/-- How a backend delivers tool-call arguments: a structured mapping
(Python `dict`) or literal JSON text. -/
inductive ArgsRep where
  | dict (j : Json)
  | text (s : String)

/-- One tool call as found in an Ollama response message. -/
structure OllamaToolCall where
  id : Option String
  name : String
  arguments : ArgsRep

/-- One converted OpenAI-format function payload. -/
structure OAFunction where
  name : String
  arguments : String

/-- One converted OpenAI-format tool call. -/
structure OAToolCall where
  id : String
  function : OAFunction

/-- `_convert_tool_calls`: `None`/empty becomes `none`; otherwise each call's
`dict` arguments are serialized with `json.dumps`, literal text is kept, and
missing ids default to `call_<index>`. -/
def convertToolCalls (tcs : List OllamaToolCall) : Option (List OAToolCall) :=
  match tcs with
  | [] => none
  | _ =>
    some (tcs.enum.map fun (i, tc) =>
      { id := tc.id.getD ("call_" ++ toString i),
        function :=
          { name := tc.name,
            arguments :=
              match tc.arguments with
              | .dict j => Json.dumps j
              | .text s => s } })

/-- The content/thinking reconciliation of `_to_openai_format`: if `content`
is empty and `thinking` is not, use `thinking`; the final message stores
`content if content else None`. -/
def resolveOllamaContent (content thinking : String) : Option String :=
  let c := if content = "" ∧ thinking ≠ "" then thinking else content
  if c = "" then none else some c

/-!
## Model of the agent loops (`lesson_2/main.py` and `lesson_1/main.py`)

The LLM backend is a function from the current conversation to a response;
tool dispatch is a function of the tool name and its argument text.  Both
are inputs of the loop, as in the sources, where they are network calls.
-/

/-- One tool call of an LLM response (OpenAI shape: name + JSON-text
arguments). -/
structure LLMToolCall where
  name : String
  arguments : String

/-- One LLM response message: content and tool calls. -/
structure LLMResponse where
  content : Option String
  tool_calls : List LLMToolCall

/-- A conversation message. -/
inductive Msg where
  | system (text : String)
  | user (text : String)
  | assistant (resp : LLMResponse)
  | tool (name : String) (content : String)

/-- Result of an agent run: the final assistant message, or the literal
fallback string the scripts return when no answer was produced. -/
inductive RunResult where
  | msg (m : LLMResponse)
  | sentinel (s : String)

/-- Default `Agent.max_iterations` of `lesson_2/main.py`. -/
def maxIterationsDefault : Nat := 10

/-- The `while iteration < self.max_iterations` loop of lesson_2 `Agent.run`.
`remaining` is `max_iterations - iteration`; the second component counts LLM
calls made.  A response with tool calls appends the assistant message and one
tool message per call (in order) and continues; a response without tool calls
is returned; falling out of the loop returns the sentinel string. -/
def lesson2Loop (llm : List Msg → LLMResponse) (dispatch : String → String → String) :
    List Msg → Nat → Nat → RunResult × Nat
  | _, 0, calls => (.sentinel "Something is wrong sorry no sorry", calls)
  | msgs, remaining + 1, calls =>
    let resp := llm msgs
    if resp.tool_calls.isEmpty then
      (.msg resp, calls + 1)
    else
      lesson2Loop llm dispatch
        (msgs ++ Msg.assistant resp ::
          resp.tool_calls.map fun tc => Msg.tool tc.name (dispatch tc.name tc.arguments))
        remaining (calls + 1)

/-- lesson_2 `Agent.run` with the default cap. -/
def lesson2Run (llm : List Msg → LLMResponse) (dispatch : String → String → String)
    (msgs : List Msg) : RunResult × Nat :=
  lesson2Loop llm dispatch msgs maxIterationsDefault 0

/-- lesson_1 `Agent.run` (single-shot): at most one tool dispatch.  `funcs`
models the `available_functions` table (`none` = `KeyError`); arguments are
`json.loads`-parsed and the chosen function's JSON result is re-serialized
into the tool message.  Returns `none` when the script would raise
(unparsable arguments or unknown function); otherwise the result together
with the number of LLM calls and of tool dispatches. -/
def lesson1Run (llm : List Msg → LLMResponse) (funcs : String → Option (Json → Json))
    (msgs : List Msg) : Option (RunResult × Nat × Nat) :=
  let resp := llm msgs
  match resp.tool_calls with
  | [] => some (.sentinel "Something is wrong sorry no sorry", 1, 0)
  | tc :: _ =>
    match Json.loads tc.arguments with
    | none => none
    | some args =>
      match funcs tc.name with
      | none => none
      | some f =>
        let msgs2 := msgs ++
          [Msg.assistant ⟨none, [⟨tc.name, Json.dumps args⟩]⟩,
           Msg.tool tc.name (Json.dumps (f args))]
        some (.msg (llm msgs2), 2, 1)

/-!
## Model of `CheckCacheNode` (`lesson_6/02_langgraph/graph.py`)
-/

/-- Substring test (Python `needle in hay`). -/
def listContainsSub (needle : List Char) : List Char → Bool
  | [] => needle.isEmpty
  | c :: t => needle.isPrefixOf (c :: t) || listContainsSub needle t

/-- Python `needle in hay` on strings. -/
def containsSub (hay needle : String) : Bool := listContainsSub needle.data hay.data

/-- Python `str.lower()` (ASCII letters; the indicator strings are ASCII). -/
def lowerStr (s : String) : String := s.map Char.toLower

/-- The `no_cache_indicators` list of `CheckCacheNode`. -/
def noCacheIndicators : List String :=
  ["none of the cities", "no cached", "not found", "cache is empty", "no data",
   "don't have", "do not have", "haven't", "have not", "missing",
   "CACHED: none", "cached: none"]

/-- The `found_indicators` list of `CheckCacheNode`. -/
def foundIndicators : List String :=
  ["found", "cached data", "temperature", "°c", "celsius", "valid"]

/-- `has_no_cache` of `CheckCacheNode`: some negative indicator occurs in the
lowercased response. -/
def checkCacheHasNoCache (response : String) : Bool :=
  noCacheIndicators.any fun ind => containsSub (lowerStr response) ind

/-- `has_cache` of `CheckCacheNode`: some positive indicator occurs and no
negative one does. -/
def checkCacheHasCache (response : String) : Bool :=
  (foundIndicators.any fun ind => containsSub (lowerStr response) ind) &&
    !checkCacheHasNoCache response

/-- The classification `CheckCacheNode` derives from the DB agent's free-text
response: `(cached_cities, missing_cities, needs_fetch)`. -/
def checkCacheClassify (response : String) (cities : List String) :
    List String × List String × Bool :=
  let cm : List String × List String :=
    if checkCacheHasNoCache response || !checkCacheHasCache response then ([], cities)
    else (cities, [])
  (cm.1, cm.2, decide (0 < cm.2.length))

namespace Json

theorem escapeString_cons (c : Char) (t : List Char) :
    escapeString (c :: t) = escapeChar c ++ escapeString t := by
  simp [escapeString]

theorem parseStrRest_quote (r : List Char) : parseStrRest ('\"' :: r) = some ([], r) := by
  rw [parseStrRest.eq_def]
  rfl

theorem parseStrRest_esc (e : Char) (r2 : List Char) :
    parseStrRest ('\\' :: e :: r2) =
      match unescapeChar e with
      | some c2 =>
        match parseStrRest r2 with
        | some (s, r3) => some (c2 :: s, r3)
        | none => none
      | none => none := by
  rw [parseStrRest.eq_def]
  simp

theorem parseStrRest_other {c : Char} (h1 : c ≠ '\"') (h2 : c ≠ '\\') (r : List Char) :
    parseStrRest (c :: r) =
      match parseStrRest r with
      | some (s, r2) => some (c :: s, r2)
      | none => none := by
  rw [parseStrRest.eq_def]
  simp [h1, h2]

theorem parseStrRest_round (s rest : List Char) :
    parseStrRest (escapeString s ++ '\"' :: rest) = some (s, rest) := by
  induction s with
  | nil => simpa [escapeString] using parseStrRest_quote rest
  | cons c t ih =>
    rw [escapeString_cons, List.append_assoc]
    by_cases h1 : c = '\"'
    · subst h1; simp [escapeChar, parseStrRest_esc, unescapeChar, ih]
    · by_cases h2 : c = '\\'
      · subst h2; simp [escapeChar, parseStrRest_esc, unescapeChar, ih]
      · by_cases h3 : c = '\n'
        · subst h3; simp [escapeChar, parseStrRest_esc, unescapeChar, ih]
        · by_cases h4 : c = '\t'
          · subst h4; simp [escapeChar, parseStrRest_esc, unescapeChar, ih]
          · by_cases h5 : c = '\r'
            · subst h5; simp [escapeChar, parseStrRest_esc, unescapeChar, ih]
            · simp [escapeChar, h1, h2, h3, h4, h5, parseStrRest_other h1 h2, ih]

theorem digitChar_isDigit {d : Nat} (h : d < 10) : (Nat.digitChar d).isDigit = true := by
  interval_cases d <;> decide

theorem digitChar_val {d : Nat} (h : d < 10) : (Nat.digitChar d).toNat - 48 = d := by
  interval_cases d <;> decide

theorem natToChars_digits (n : Nat) : ∀ c ∈ natToChars n, c.isDigit = true := by
  unfold natToChars
  split
  · intro c hc
    simp only [List.mem_singleton] at hc
    subst hc; decide
  · intro c hc
    simp only [List.mem_reverse, List.mem_map] at hc
    obtain ⟨d, hd, rfl⟩ := hc
    exact digitChar_isDigit (Nat.digits_lt_base (by norm_num) hd)

theorem natToChars_ne_nil (n : Nat) : natToChars n ≠ [] := by
  unfold natToChars
  split
  · simp
  · simp [Nat.digits_ne_nil_iff_ne_zero, *]

theorem takeWhile_digits_append {l rest : List Char} (hl : ∀ c ∈ l, c.isDigit = true)
    (hr : noDigitStart rest = true) :
    (l ++ rest).takeWhile Char.isDigit = l ∧ (l ++ rest).dropWhile Char.isDigit = rest := by
  induction l with
  | nil =>
    cases rest with
    | nil => simp
    | cons c t =>
      simp only [noDigitStart, Bool.not_eq_true'] at hr
      simp [List.takeWhile_cons, List.dropWhile_cons, hr]
  | cons c l ih =>
    have hc := hl c (List.mem_cons_self c l)
    have := ih (fun x hx => hl x (List.mem_cons_of_mem c hx))
    simp [List.takeWhile_cons, List.dropWhile_cons, hc, this.1, this.2]

theorem foldr_digit_val {L : List Nat} (hL : ∀ d ∈ L, d < 10) :
    L.foldr (fun d a => a * 10 + ((Nat.digitChar d).toNat - 48)) 0 = Nat.ofDigits 10 L := by
  induction L with
  | nil => simp [Nat.ofDigits]
  | cons d t ih =>
    have ht := ih (fun x hx => hL x (List.mem_cons_of_mem d hx))
    have hd := digitChar_val (hL d (List.mem_cons_self d t))
    simp only [List.foldr_cons, Nat.ofDigits_cons, ht, hd]
    omega

theorem foldl_natToChars (n : Nat) :
    (natToChars n).foldl (fun a c => a * 10 + (c.toNat - 48)) 0 = n := by
  unfold natToChars
  split
  · simp [*]
  · rw [List.foldl_reverse, List.foldr_map,
      foldr_digit_val (fun d hd => Nat.digits_lt_base (by norm_num) hd),
      Nat.ofDigits_digits]

theorem parseNatChars_round (n : Nat) {rest : List Char} (hr : noDigitStart rest = true) :
    parseNatChars (natToChars n ++ rest) = some (n, rest) := by
  obtain ⟨ht, hd⟩ := takeWhile_digits_append (natToChars_digits n) hr
  simp [parseNatChars, ht, hd, natToChars_ne_nil n, foldl_natToChars n]

theorem char_isDigit_ne {c : Char} (h : c.isDigit = true) :
    c ≠ 'n' ∧ c ≠ 't' ∧ c ≠ 'f' ∧ c ≠ '\"' ∧ c ≠ '[' ∧ c ≠ '\x7b' ∧ c ≠ '-' ∧
      c ≠ ']' ∧ c ≠ '\x7d' ∧ c ≠ ',' ∧ c ≠ ':' ∧ isWsChar c = false := by
  have base : c ≠ ' ' ∧ c ≠ '\n' ∧ c ≠ '\t' ∧ c ≠ '\r' := by
    refine ⟨?_, ?_, ?_, ?_⟩ <;> (intro e; rw [e] at h; exact absurd h (by decide))
  refine ⟨?_, ?_, ?_, ?_, ?_, ?_, ?_, ?_, ?_, ?_, ?_, ?_⟩
  · intro e; rw [e] at h; exact absurd h (by decide)
  · intro e; rw [e] at h; exact absurd h (by decide)
  · intro e; rw [e] at h; exact absurd h (by decide)
  · intro e; rw [e] at h; exact absurd h (by decide)
  · intro e; rw [e] at h; exact absurd h (by decide)
  · intro e; rw [e] at h; exact absurd h (by decide)
  · intro e; rw [e] at h; exact absurd h (by decide)
  · intro e; rw [e] at h; exact absurd h (by decide)
  · intro e; rw [e] at h; exact absurd h (by decide)
  · intro e; rw [e] at h; exact absurd h (by decide)
  · intro e; rw [e] at h; exact absurd h (by decide)
  · simp [isWsChar, base.1, base.2.1, base.2.2.1, base.2.2.2]

theorem valStart_props {c : Char} (h : valStart c = true) :
    isWsChar c = false ∧ c ≠ ']' ∧ c ≠ '\x7d' ∧ c ≠ ',' ∧ c ≠ ':' := by
  simp only [valStart, Bool.or_eq_true, decide_eq_true_eq] at h
  rcases h with ((((((rfl | rfl) | rfl) | rfl) | rfl) | rfl) | rfl) | hd
  · decide
  · decide
  · decide
  · decide
  · decide
  · decide
  · decide
  · obtain ⟨-, -, -, -, -, -, -, h1, h2, h3, h4, h5⟩ := char_isDigit_ne hd
    exact ⟨h5, h1, h2, h3, h4⟩

theorem skipWs_cons_of_neg {c : Char} (h : isWsChar c = false) (r : List Char) :
    skipWs (c :: r) = c :: r := by
  simp [skipWs, List.dropWhile_cons, h]

theorem skipWs_space (r : List Char) : skipWs (' ' :: r) = skipWs r := by
  simp [skipWs, List.dropWhile_cons, isWsChar]

theorem parseNum_round (n : Int) {rest : List Char} (hr : noDigitStart rest = true) :
    parseNum (intToChars n ++ rest) = some (.num n, rest) := by
  unfold intToChars
  split
  · rename_i hneg
    rw [List.cons_append, parseNum.eq_def]
    simp [parseNatChars_round n.natAbs hr, abs_of_neg hneg]
  · rename_i hpos
    obtain ⟨c, t, hct⟩ := List.exists_cons_of_ne_nil (natToChars_ne_nil n.natAbs)
    have hcd : c.isDigit = true :=
      natToChars_digits _ c (by rw [hct]; exact List.mem_cons_self c t)
    obtain ⟨-, -, -, -, -, -, hm, -⟩ := char_isDigit_ne hcd
    rw [hct, List.cons_append, parseNum.eq_def]
    simp only [hm, if_false, ite_false]
    rw [← List.cons_append, ← hct, parseNatChars_round n.natAbs hr]
    simp [abs_of_nonneg (not_lt.mp hpos)]

theorem serialize_start (v : Json) : ∃ c r, serialize v = c :: r ∧ valStart c = true := by
  cases v with
  | null => exact ⟨'n', ['u', 'l', 'l'], rfl, by decide⟩
  | bool b =>
    cases b with
    | true => exact ⟨'t', ['r', 'u', 'e'], rfl, by decide⟩
    | false => exact ⟨'f', ['a', 'l', 's', 'e'], rfl, by decide⟩
  | num n =>
    by_cases hneg : n < 0
    · exact ⟨'-', natToChars n.natAbs, by simp [serialize, intToChars, hneg], by decide⟩
    · obtain ⟨c, t, hct⟩ := List.exists_cons_of_ne_nil (natToChars_ne_nil n.natAbs)
      have hcd : c.isDigit = true :=
        natToChars_digits _ c (by rw [hct]; exact List.mem_cons_self c t)
      refine ⟨c, t, by simp [serialize, intToChars, hneg, hct], ?_⟩
      simp [valStart, hcd]
  | str s => exact ⟨'\"', escapeString s ++ ['\"'], by simp [serialize, serializeKey], by decide⟩
  | arr l => exact ⟨'[', serializeItems l ++ [']'], by simp [serialize], by decide⟩
  | obj fs => exact ⟨'\x7b', serializeFields fs ++ ['\x7d'], by simp [serialize], by decide⟩

theorem serialize_ne_nil (v : Json) : serialize v ≠ [] := by
  obtain ⟨c, r, hc, -⟩ := serialize_start v
  simp [hc]

theorem skipWs_serialize (v : Json) (x : List Char) :
    skipWs (serialize v ++ x) = serialize v ++ x := by
  obtain ⟨c, r, hc, hs⟩ := serialize_start v
  rw [hc, List.cons_append, skipWs_cons_of_neg (valStart_props hs).1]

theorem skipWs_serializeItems (l : List Json) (rest : List Char) :
    skipWs (serializeItems l ++ ']' :: rest) = serializeItems l ++ ']' :: rest := by
  cases l with
  | nil => simpa [serializeItems] using skipWs_cons_of_neg (by decide) rest
  | cons v vs =>
    cases vs with
    | nil =>
      rw [show serializeItems [v] = serialize v from by simp [serializeItems]]
      exact skipWs_serialize v _
    | cons v2 vs2 =>
      rw [show serializeItems (v :: v2 :: vs2) =
            serialize v ++ ',' :: ' ' :: serializeItems (v2 :: vs2) from by simp [serializeItems],
        List.append_assoc]
      exact skipWs_serialize v _

theorem skipWs_serializeFields (fs : List (List Char × Json)) (rest : List Char) :
    skipWs (serializeFields fs ++ '\x7d' :: rest) = serializeFields fs ++ '\x7d' :: rest := by
  cases fs with
  | nil => simpa [serializeFields] using skipWs_cons_of_neg (by decide) rest
  | cons kv fs2 =>
    obtain ⟨k, v⟩ := kv
    cases fs2 with
    | nil =>
      rw [show serializeFields [(k, v)] = serializeKey k ++ ':' :: ' ' :: serialize v from by
            simp [serializeFields],
        List.append_assoc]
      rw [serializeKey, List.cons_append, List.cons_append,
        skipWs_cons_of_neg (show isWsChar '\"' = false from by decide)]
    | cons kv2 fs3 =>
      rw [show serializeFields ((k, v) :: kv2 :: fs3) =
            serializeKey k ++ ':' :: ' ' :: serialize v ++ ',' :: ' ' :: serializeFields (kv2 :: fs3)
          from by simp [serializeFields]]
      rw [List.append_assoc, serializeKey]
      simp only [List.cons_append]
      rw [skipWs_cons_of_neg (show isWsChar '\"' = false from by decide)]

theorem parseArrItems_step (f : Nat) (v : Json) (x : List Char) :
    parseArrItems (f + 1) (serialize v ++ x) =
      match parseVal f (serialize v ++ x) with
      | some (v1, r1) =>
        match skipWs r1 with
        | ',' :: r2 =>
          (match parseArrItems f (skipWs r2) with
           | some (vs, r3) => some (v1 :: vs, r3)
           | none => none)
        | ']' :: r2 => some ([v1], r2)
        | _ => none
      | none => none := by
  obtain ⟨c0, r0, hc0, hvs0⟩ := serialize_start v
  obtain ⟨-, hrb0, -, -, -⟩ := valStart_props hvs0
  rw [hc0, List.cons_append, parseArrItems]
  simp [hrb0]

theorem parseObjItems_step (f : Nat) (k : List Char) (x : List Char) :
    parseObjItems (f + 1) (serializeKey k ++ x) =
      match skipWs x with
      | ':' :: r2 =>
        (match parseVal f (skipWs r2) with
         | some (v, r3) =>
           match skipWs r3 with
           | ',' :: r4 =>
             (match parseObjItems f (skipWs r4) with
              | some (fs, r5) => some ((k, v) :: fs, r5)
              | none => none)
           | '\x7d' :: r4 => some ([(k, v)], r4)
           | _ => none
         | none => none)
      | _ => none := by
  rw [serializeKey]
  simp only [List.cons_append, List.append_assoc, List.singleton_append]
  rw [parseObjItems]
  simp [parseStrRest_round]

theorem parse_round_core (f : Nat) :
    (∀ v rest, (serialize v).length ≤ f → noDigitStart rest = true →
        parseVal f (serialize v ++ rest) = some (v, rest)) ∧
    (∀ l rest, (serializeItems l).length + 1 ≤ f →
        parseArrItems f (serializeItems l ++ ']' :: rest) = some (l, rest)) ∧
    (∀ fs rest, (serializeFields fs).length + 1 ≤ f →
        parseObjItems f (serializeFields fs ++ '\x7d' :: rest) = some (fs, rest)) := by
  induction f with
  | zero =>
    refine ⟨?_, ?_, ?_⟩
    · intro v rest hlen hnd
      have h1 := serialize_ne_nil v
      have h2 : (serialize v).length ≠ 0 := by simpa using h1
      omega
    · intro l rest hlen
      omega
    · intro fs rest hlen
      omega
  | succ f ih =>
    obtain ⟨ihP, ihQ, ihR⟩ := ih
    refine ⟨?_, ?_, ?_⟩
    · intro v rest hlen hnd
      cases v with
      | null =>
        rw [show serialize Json.null = ['n', 'u', 'l', 'l'] from rfl]
        rw [parseVal]
        simp only [List.cons_append, List.nil_append]
        rw [skipWs_cons_of_neg (by decide)]
        simp
      | bool b =>
        cases b with
        | true =>
          rw [show serialize (Json.bool true) = ['t', 'r', 'u', 'e'] from rfl]
          rw [parseVal]
          simp only [List.cons_append, List.nil_append]
          rw [skipWs_cons_of_neg (by decide)]
          simp
        | false =>
          rw [show serialize (Json.bool false) = ['f', 'a', 'l', 's', 'e'] from rfl]
          rw [parseVal]
          simp only [List.cons_append, List.nil_append]
          rw [skipWs_cons_of_neg (by decide)]
          simp
      | num n =>
        have hser : serialize (Json.num n) = intToChars n := by simp [serialize]
        by_cases hneg : n < 0
        · have hsh : intToChars n = '-' :: natToChars n.natAbs := by simp [intToChars, hneg]
          have hpn : parseNum ('-' :: (natToChars n.natAbs ++ rest)) = some (Json.num n, rest) := by
            rw [← List.cons_append, ← hsh]
            exact parseNum_round n hnd
          rw [hser, hsh, List.cons_append, parseVal]
          rw [skipWs_cons_of_neg (by decide)]
          simp [hpn]
        · obtain ⟨c, t, hct⟩ := List.exists_cons_of_ne_nil (natToChars_ne_nil n.natAbs)
          have hsh : intToChars n = natToChars n.natAbs := by simp [intToChars, hneg]
          have hcd : c.isDigit = true :=
            natToChars_digits _ c (by rw [hct]; exact List.mem_cons_self c t)
          obtain ⟨e1, e2, e3, e4, e5, e6, e7, -, -, -, -, e8⟩ := char_isDigit_ne hcd
          have hpn : parseNum (c :: (t ++ rest)) = some (Json.num n, rest) := by
            rw [← List.cons_append, ← hct, ← hsh]
            exact parseNum_round n hnd
          rw [hser, hsh, hct, List.cons_append, parseVal]
          rw [skipWs_cons_of_neg e8]
          simp [e1, e2, e3, e4, e5, e6, hcd, hpn]
      | str s =>
        rw [show serialize (Json.str s) = '\"' :: (escapeString s ++ ['\"']) from by
              simp [serialize, serializeKey]]
        rw [List.cons_append, List.append_assoc, List.singleton_append, parseVal]
        rw [skipWs_cons_of_neg (by decide)]
        simp [parseStrRest_round]
      | arr l =>
        have hlen2 : (serializeItems l).length + 1 ≤ f := by
          have : (serialize (Json.arr l)).length = (serializeItems l).length + 2 := by
            simp [serialize]
          omega
        rw [show serialize (Json.arr l) = '[' :: (serializeItems l ++ [']']) from by
              simp [serialize]]
        rw [List.cons_append, List.append_assoc, List.singleton_append, parseVal]
        rw [skipWs_cons_of_neg (by decide)]
        simp [skipWs_serializeItems, ihQ l rest hlen2]
      | obj fs =>
        have hlen2 : (serializeFields fs).length + 1 ≤ f := by
          have : (serialize (Json.obj fs)).length = (serializeFields fs).length + 2 := by
            simp [serialize]
          omega
        rw [show serialize (Json.obj fs) = '\x7b' :: (serializeFields fs ++ ['\x7d']) from by
              simp [serialize]]
        rw [List.cons_append, List.append_assoc, List.singleton_append, parseVal]
        rw [skipWs_cons_of_neg (by decide)]
        simp [skipWs_serializeFields, ihR fs rest hlen2]
    · intro l rest hlen
      cases l with
      | nil =>
        rw [show serializeItems ([] : List Json) = [] from by simp [serializeItems]]
        rw [List.nil_append, parseArrItems]
        simp
      | cons v vs =>
        cases vs with
        | nil =>
          have h1 : (serialize v).length ≤ f := by
            have h0 : (serializeItems [v]).length = (serialize v).length := by
              simp [serializeItems]
            omega
          rw [show serializeItems [v] = serialize v from by simp [serializeItems]]
          rw [parseArrItems_step]
          rw [ihP v (']' :: rest) h1 rfl]
          simp [skipWs_cons_of_neg (show isWsChar ']' = false from by decide)]
        | cons v2 vs2 =>
          have hsi : serializeItems (v :: v2 :: vs2) =
              serialize v ++ ',' :: ' ' :: serializeItems (v2 :: vs2) := by
            simp [serializeItems]
          have hL : (serializeItems (v :: v2 :: vs2)).length =
              (serialize v).length + 2 + (serializeItems (v2 :: vs2)).length := by
            rw [hsi]
            simp
            omega
          have h1 : (serialize v).length ≤ f := by omega
          have h2 : (serializeItems (v2 :: vs2)).length + 1 ≤ f := by
            have h3 := serialize_ne_nil v
            have h4 : (serialize v).length ≠ 0 := by simpa using h3
            omega
          rw [hsi, List.append_assoc]
          simp only [List.cons_append]
          rw [parseArrItems_step]
          rw [ihP v (',' :: ' ' :: (serializeItems (v2 :: vs2) ++ ']' :: rest)) h1 rfl]
          simp [skipWs_cons_of_neg (show isWsChar ',' = false from by decide),
            skipWs_space, skipWs_serializeItems, ihQ (v2 :: vs2) rest h2]
    · intro fs rest hlen
      cases fs with
      | nil =>
        rw [show serializeFields ([] : List (List Char × Json)) = [] from by
              simp [serializeFields]]
        rw [List.nil_append, parseObjItems]
        simp
      | cons kv fs2 =>
        obtain ⟨k, v⟩ := kv
        cases fs2 with
        | nil =>
          have hsf : serializeFields [(k, v)] = serializeKey k ++ ':' :: ' ' :: serialize v := by
            simp [serializeFields]
          have hkey : (serializeKey k).length = (escapeString k).length + 2 := by
            simp [serializeKey]
          have hL : (serializeFields [(k, v)]).length =
              (serializeKey k).length + 2 + (serialize v).length := by
            rw [hsf]
            simp
            omega
          have h1 : (serialize v).length ≤ f := by omega
          rw [hsf, List.append_assoc]
          simp only [List.cons_append]
          rw [parseObjItems_step]
          simp [skipWs_cons_of_neg (show isWsChar ':' = false from by decide),
            skipWs_space, skipWs_serialize, ihP v ('\x7d' :: rest) h1 rfl,
            skipWs_cons_of_neg (show isWsChar '\x7d' = false from by decide)]
        | cons kv2 fs3 =>
          have hsf : serializeFields ((k, v) :: kv2 :: fs3) =
              serializeKey k ++ ':' :: ' ' :: serialize v ++
                ',' :: ' ' :: serializeFields (kv2 :: fs3) := by
            simp [serializeFields]
          have hkey : (serializeKey k).length = (escapeString k).length + 2 := by
            simp [serializeKey]
          have hL : (serializeFields ((k, v) :: kv2 :: fs3)).length =
              (serializeKey k).length + 2 + (serialize v).length + 2 +
                (serializeFields (kv2 :: fs3)).length := by
            rw [hsf]
            simp
            omega
          have h1 : (serialize v).length ≤ f := by omega
          have h2 : (serializeFields (kv2 :: fs3)).length + 1 ≤ f := by omega
          rw [hsf]
          rw [List.append_assoc, List.append_assoc]
          simp only [List.cons_append]
          rw [parseObjItems_step]
          simp [skipWs_cons_of_neg (show isWsChar ':' = false from by decide),
            skipWs_cons_of_neg (show isWsChar ',' = false from by decide),
            skipWs_space, skipWs_serialize, skipWs_serializeFields,
            ihP v (',' :: ' ' :: (serializeFields (kv2 :: fs3) ++ '\x7d' :: rest)) h1 rfl,
            ihR (kv2 :: fs3) rest h2]

theorem parseJson_serialize (v : Json) : parseJson (serialize v) = some v := by
  unfold parseJson
  have h := (parse_round_core ((serialize v).length + 1)).1 v [] (by omega) rfl
  rw [List.append_nil] at h
  rw [h]
  simp [skipWs]

theorem loads_dumps (j : Json) : loads (dumps j) = some j := by
  simpa [loads, dumps] using parseJson_serialize j

end Json

theorem dictGet_dictInsert (k v t : String) (r : List (String × String)) :
    dictGet t (dictInsert k v r) = if k = t then some v else dictGet t r := by
  induction r with
  | nil => simp [dictInsert, dictGet]
  | cons p rest ih =>
    obtain ⟨k2, v2⟩ := p
    simp only [dictInsert]
    by_cases h : k2 = k
    · subst h
      simp only [if_pos rfl, dictGet]
      by_cases ht : k2 = t
      · simp [ht]
      · simp [ht]
    · simp only [if_neg h, dictGet]
      by_cases ht : k2 = t
      · subst ht
        have hk : ¬(k = k2) := fun e => h e.symm
        simp [ih, hk]
      · simp [ht, ih]

theorem dictGet_registerTools (sname : String) (tools : List String) (t : String)
    (reg : List (String × String)) :
    dictGet t (registerTools sname tools reg) =
      if t ∈ tools then some sname else dictGet t reg := by
  induction tools generalizing reg with
  | nil => simp [registerTools]
  | cons tool ts ih =>
    show dictGet t (registerTools sname ts (dictInsert tool sname reg)) = _
    rw [ih]
    by_cases h1 : t ∈ ts
    · simp [h1, List.mem_cons]
    · by_cases h2 : tool = t
      · simp [h1, h2, dictGet_dictInsert]
      · have h3 : ¬(t = tool) := fun e => h2 e.symm
        simp [h1, h3, dictGet_dictInsert, h2]

theorem dictGet_buildRegistry_fold (specs : List SourceSpec) (t : String)
    (reg : List (String × String)) :
    dictGet t (specs.foldl
        (fun reg s => if s.ok then registerTools s.name s.tools reg else reg) reg) =
      match lastOwner specs t with
      | some n => some n
      | none => dictGet t reg := by
  induction specs generalizing reg with
  | nil => simp [lastOwner]
  | cons s ss ih =>
    rw [List.foldl_cons, ih]
    cases hlo : lastOwner ss t with
    | some n => simp [lastOwner, hlo]
    | none =>
      simp only [lastOwner, hlo]
      by_cases hok : s.ok
      · by_cases hmem : t ∈ s.tools
        · simp [hok, hmem, dictGet_registerTools]
        · simp [hok, hmem, dictGet_registerTools]
      · simp [hok]

theorem dictGet_buildRegistry (specs : List SourceSpec) (t : String) :
    dictGet t (buildRegistry specs) = lastOwner specs t := by
  rw [buildRegistry, dictGet_buildRegistry_fold]
  cases lastOwner specs t <;> simp [dictGet]

/-- Claim C1 (counterexample): with sources registering a,b and b,c in that
order, the registry maps the colliding name b to the SECOND source, not the
first as the claim states. -/
theorem C1_counterexample :
    dictGet "b" (buildRegistry demoSpecs) = some "s2" ∧
      dictGet "b" (buildRegistry demoSpecs) ≠ some "s1" := by
  constructor
  · rfl
  · decide

/-- Claim C1 (amended): name collisions in the merged registry resolve
last-registered-wins: for every configuration and tool name the registry
entry is the last successfully connected source listing that name; on the
a,b / b,c example the owner map is a↦s1, b↦s2, c↦s2, and dispatching b
through `call_tool` reaches source s2 (its name appears in the error path
and its connection serves the success path). -/
theorem C1_amended :
    (∀ specs t, dictGet t (buildRegistry specs) = lastOwner specs t) ∧
    dictGet "a" (buildRegistry demoSpecs) = some "s1" ∧
    dictGet "b" (buildRegistry demoSpecs) = some "s2" ∧
    dictGet "c" (buildRegistry demoSpecs) = some "s2" ∧
    (∀ remote, MultiMCPClient.callTool (buildState demoSpecs) "b" remote =
      match remote with
      | .error e => "Error calling tool 'b' on server 's2': " ++ e
      | .ok resp =>
        if resp.content.isEmpty then "No response content"
        else String.intercalate "\n" (resp.content.filterMap ContentPart.asText)) := by
  refine ⟨dictGet_buildRegistry, rfl, rfl, rfl, ?_⟩
  intro remote
  cases remote <;> rfl

/-- Claim C3: for an unregistered tool name `call_tool` returns the
tool-not-found error string, and for an owner whose session is gone it
returns the server-not-connected error string; neither path raises. -/
theorem C3_call_tool_errors (st : MultiMCPClient) (toolName : String)
    (remote : Except String ToolResponse) :
    (dictGet toolName st.toolToServer = none →
      st.callTool toolName remote =
        "Error: Tool '" ++ toolName ++ "' not found on any connected server") ∧
    (∀ sname, dictGet toolName st.toolToServer = some sname →
      st.sessionOf sname = false →
      st.callTool toolName remote =
        "Error: Server '" ++ sname ++ "' is not connected") := by
  constructor
  · intro h
    simp [MultiMCPClient.callTool, h]
  · intro sname h hs
    simp [MultiMCPClient.callTool, h, hs]

theorem C3_call_tool_errors_witness :
    MultiMCPClient.callTool (buildState demoSpecs) "zzz" (.ok ⟨none, []⟩) =
        "Error: Tool 'zzz' not found on any connected server" ∧
    MultiMCPClient.callTool ((buildState demoSpecs).disconnect) "a" (.ok ⟨none, []⟩) =
        "Error: Server 's1' is not connected" := by
  constructor
  · exact (C3_call_tool_errors (buildState demoSpecs) "zzz" (.ok ⟨none, []⟩)).1 rfl
  · exact (C3_call_tool_errors ((buildState demoSpecs).disconnect) "a" (.ok ⟨none, []⟩)).2
      "s1" rfl rfl

/-- Claim C4 (counterexample): after disconnecting, the tool still has its
registry entry although its owning connection is no longer connected — the
claimed iff fails. -/
theorem C4_counterexample :
    dictGet "a" ((buildState [⟨"s1", true, ["a"]⟩]).disconnect).toolToServer = some "s1" ∧
    ((buildState [⟨"s1", true, ["a"]⟩]).disconnect).connectedOf "s1" = false := by
  constructor <;> rfl

/-- Claim C4 (amended): registry entries are not removed by disconnect —
`_tool_to_server` is unchanged — but they are invalidated for dispatch:
after disconnecting a router built by connect, `call_tool` on any
registered name returns the server-not-connected error string. -/
theorem C4_amended (specs : List SourceSpec) (toolName sname : String)
    (remote : Except String ToolResponse)
    (h : dictGet toolName ((buildState specs).disconnect).toolToServer = some sname) :
    ((buildState specs).disconnect).toolToServer = (buildState specs).toolToServer ∧
    ((buildState specs).disconnect).callTool toolName remote =
      "Error: Server '" ++ sname ++ "' is not connected" := by
  refine ⟨rfl, ?_⟩
  have hs : ((buildState specs).disconnect).sessionOf sname = false := by
    unfold MultiMCPClient.sessionOf
    cases hf : ((buildState specs).disconnect).connections.find? (fun c => c.name = sname) with
    | none => rfl
    | some c =>
      have hmem := List.mem_of_find?_eq_some hf
      simp only [MultiMCPClient.disconnect, buildState, List.map_map, List.mem_map,
        Function.comp] at hmem
      obtain ⟨s, hsmem, hc⟩ := hmem
      by_cases hok : s.ok
      · rw [← hc]
        simp [connResult, hok]
      · rw [← hc]
        simp [connResult, hok]
  simp [MultiMCPClient.callTool, h, hs]

theorem C4_amended_witness :
    ((buildState [⟨"s1", true, ["a"]⟩]).disconnect).toolToServer =
        (buildState [⟨"s1", true, ["a"]⟩]).toolToServer ∧
    ((buildState [⟨"s1", true, ["a"]⟩]).disconnect).callTool "a" (.ok ⟨none, []⟩) =
        "Error: Server 's1' is not connected" :=
  C4_amended [⟨"s1", true, ["a"]⟩] "a" "s1" (.ok ⟨none, []⟩) rfl

/-- Claim C7 (counterexample): a single source that connects successfully but
reports zero tools makes `connect` raise even though one source ended up
connected — the raise condition is an empty tool registry, not zero
connected sources. -/
theorem C7_counterexample :
    MultiMCPClient.connect [⟨"s1", true, ([] : List String)⟩] =
        .error "Failed to connect to any MCP server" ∧
    ((buildState [⟨"s1", true, ([] : List String)⟩]).connections.filter
        (fun c => c.connected)).length = 1 := by
  constructor <;> rfl

/-- Claim C7 (amended): router connect tolerates single-source failures — each source's
connected flag equals its own connect outcome, independent of other
sources — and it raises the no-sources error exactly when the merged tool
registry ends up empty (which can happen even with connected sources, when
they report no tools). -/
theorem C7_amended (specs : List SourceSpec) :
    (MultiMCPClient.connect specs = .error "Failed to connect to any MCP server" ↔
      buildRegistry specs = []) ∧
    ((buildState specs).connections.map (fun c => c.connected) =
      specs.map (fun s => s.ok)) := by
  constructor
  · by_cases h : buildRegistry specs = []
    · simp [MultiMCPClient.connect, buildState, h]
    · simp [MultiMCPClient.connect, buildState, h]
  · simp only [buildState, List.map_map]
    rfl

/-- Claim C5 (counterexample): a response carrying both a structured JSON payload
and a textual part: the router's `call_tool` (lesson_5) returns the joined
text, not the serialized structured payload the claim's policy prescribes
(lesson_2's converter does return the payload, and the two results differ). -/
theorem C5_counterexample :
    MultiMCPClient.callTool (buildState demoSpecs) "a"
        (.ok ⟨some (Json.obj [(['x'], Json.null)]), [ContentPart.text "hello"]⟩) = "hello" ∧
    mcpToolResponseToText ⟨some (Json.obj [(['x'], Json.null)]), [ContentPart.text "hello"]⟩ =
        Json.dumps (Json.obj [(['x'], Json.null)]) ∧
    ("hello" : String) ≠ Json.dumps (Json.obj [(['x'], Json.null)]) := by
  refine ⟨rfl, rfl, ?_⟩
  simp [Json.dumps, Json.serialize, Json.serializeFields, Json.serializeKey,
    Json.escapeString, Json.escapeChar]

/-- Claim C5 (amended): only lesson_2's converter implements the
structured-payload preference; the router's `call_tool` ignores
`structuredContent` entirely (its result does not depend on it) and joins
just the textual parts with newlines; on responses with no structured
payload and only textual parts the two flatteners agree. -/
theorem C5_amended :
    (∀ st toolName content sc1 sc2,
        MultiMCPClient.callTool st toolName (.ok ⟨sc1, content⟩) =
          MultiMCPClient.callTool st toolName (.ok ⟨sc2, content⟩)) ∧
    (∀ resp j, resp.structuredContent = some j →
        mcpToolResponseToText resp = Json.dumps j) ∧
    (∀ st toolName sname (texts : List String),
        texts ≠ [] →
        dictGet toolName st.toolToServer = some sname →
        st.sessionOf sname = true →
        MultiMCPClient.callTool st toolName (.ok ⟨none, texts.map ContentPart.text⟩) =
          mcpToolResponseToText ⟨none, texts.map ContentPart.text⟩) := by
  refine ⟨?_, ?_, ?_⟩
  · intro st toolName content sc1 sc2
    rfl
  · intro resp j h
    simp [mcpToolResponseToText, h]
  · intro st toolName sname texts hne h1 h2
    have hfm : ∀ ts : List String,
        List.filterMap (ContentPart.asText ∘ ContentPart.text) ts = ts := by
      intro ts
      induction ts with
      | nil => rfl
      | cons a b ihb => simp [List.filterMap_cons, ContentPart.asText, Function.comp, ihb]
    have hmp : ∀ ts : List String,
        List.map (ContentPart.toStr ∘ ContentPart.text) ts = ts := by
      intro ts
      induction ts with
      | nil => rfl
      | cons a b ihb => simp [ContentPart.toStr, Function.comp, ihb]
    cases texts with
    | nil => exact absurd rfl hne
    | cons t ts =>
      simp [MultiMCPClient.callTool, h1, h2, mcpToolResponseToText, List.filterMap_map,
        List.map_map, ContentPart.asText, ContentPart.toStr, hfm, hmp]

theorem C5_amended_witness :
    (MultiMCPClient.callTool (buildState demoSpecs) "a"
        (.ok ⟨some Json.null, [ContentPart.text "x"]⟩) =
      MultiMCPClient.callTool (buildState demoSpecs) "a"
        (.ok ⟨none, [ContentPart.text "x"]⟩)) ∧
    (mcpToolResponseToText ⟨some Json.null, []⟩ = Json.dumps Json.null) ∧
    (MultiMCPClient.callTool (buildState demoSpecs) "a"
        (.ok ⟨none, (["hi"] : List String).map ContentPart.text⟩) =
      mcpToolResponseToText ⟨none, (["hi"] : List String).map ContentPart.text⟩) :=
  ⟨C5_amended.1 (buildState demoSpecs) "a" [ContentPart.text "x"] (some Json.null) none,
   C5_amended.2.1 ⟨some Json.null, []⟩ Json.null rfl,
   C5_amended.2.2 (buildState demoSpecs) "a" "s1" ["hi"] (by simp) rfl rfl⟩

theorem enumFrom_map_snd {α β : Type} (g : α → β) (n : Nat) (l : List α) :
    (List.enumFrom n l).map (fun p => g p.2) = l.map g := by
  induction l generalizing n with
  | nil => rfl
  | cons x xs ih => simp [List.enumFrom, ih]

/-- Claim C6: the adapter turns every structured (`dict`) argument payload into its
JSON-text serialization (text payloads pass through), and parsing the
serialization of any argument mapping gives back an equal mapping. -/
theorem C6_args_normalization :
    (∀ tcs out, convertToolCalls tcs = some out →
        out.map (fun c => c.function.arguments) =
          tcs.map (fun tc =>
            match tc.arguments with
            | ArgsRep.dict j => Json.dumps j
            | ArgsRep.text s => s)) ∧
    (∀ fields, Json.loads (Json.dumps (Json.obj fields)) = some (Json.obj fields)) := by
  constructor
  · intro tcs out h
    cases tcs with
    | nil => simp [convertToolCalls] at h
    | cons tc ts =>
      rw [show convertToolCalls (tc :: ts) =
            some ((tc :: ts).enum.map fun (i, tc) =>
              { id := tc.id.getD ("call_" ++ toString i),
                function :=
                  { name := tc.name,
                    arguments :=
                      match tc.arguments with
                      | .dict j => Json.dumps j
                      | .text s => s } })
          from rfl] at h
      obtain rfl := Option.some.inj h
      rw [List.map_map]
      exact enumFrom_map_snd
        (fun tc =>
          match tc.arguments with
          | ArgsRep.dict j => Json.dumps j
          | ArgsRep.text s => s) 0 (tc :: ts)
  · intro fields
    exact Json.loads_dumps (Json.obj fields)

theorem C6_args_normalization_witness :
    ([⟨"call_0", ⟨"get_weather", Json.dumps (Json.obj [(['c'], Json.str ['B'])])⟩⟩] :
        List OAToolCall).map (fun c => c.function.arguments) =
      ([⟨none, "get_weather", ArgsRep.dict (Json.obj [(['c'], Json.str ['B'])])⟩] :
        List OllamaToolCall).map (fun tc =>
          match tc.arguments with
          | ArgsRep.dict j => Json.dumps j
          | ArgsRep.text s => s) :=
  C6_args_normalization.1
    [⟨none, "get_weather", ArgsRep.dict (Json.obj [(['c'], Json.str ['B'])])⟩] _ rfl

theorem lesson2Loop_all_tool_calls (llm : List Msg → LLMResponse)
    (dispatch : String → String → String)
    (h : ∀ ms, (llm ms).tool_calls ≠ []) :
    ∀ (remaining : Nat) (msgs : List Msg) (calls : Nat),
      lesson2Loop llm dispatch msgs remaining calls =
        (.sentinel "Something is wrong sorry no sorry", calls + remaining) := by
  intro remaining
  induction remaining with
  | zero => intro msgs calls; simp [lesson2Loop]
  | succ r ih =>
    intro msgs calls
    rw [lesson2Loop]
    have hne := h msgs
    rw [if_neg (by simpa [List.isEmpty_iff] using hne)]
    rw [ih]
    have h2 : calls + 1 + r = calls + (r + 1) := by omega
    rw [h2]

/-- Claim C2: when every LLM response contains tool calls, the lesson_2 loop makes
exactly `max_iterations` LLM calls (the second component counts them) and
returns the script's sentinel string instead of raising; the default cap is
10. -/
theorem C2_iteration_cap (llm : List Msg → LLMResponse)
    (dispatch : String → String → String) (maxIter : Nat) (msgs : List Msg)
    (h : ∀ ms, (llm ms).tool_calls ≠ []) :
    lesson2Loop llm dispatch msgs maxIter 0 =
      (.sentinel "Something is wrong sorry no sorry", maxIter) ∧
    maxIterationsDefault = 10 := by
  refine ⟨?_, rfl⟩
  have := lesson2Loop_all_tool_calls llm dispatch h maxIter msgs 0
  simpa using this

theorem C2_iteration_cap_witness :
    lesson2Loop (fun _ => ⟨none, [⟨"get_weather", "[]"⟩]⟩) (fun _ _ => "result") [] 10 0 =
      (.sentinel "Something is wrong sorry no sorry", 10) ∧
    maxIterationsDefault = 10 :=
  C2_iteration_cap (fun _ => ⟨none, [⟨"get_weather", "[]"⟩]⟩) (fun _ _ => "result") 10 []
    (fun ms => by simp)

/-- Claim C8: in the lesson_1 single-shot agent, when the first response has tool
calls, only the first of them is dispatched (later ones are ignored), the
assistant and tool messages are appended, exactly one more LLM call is made
(2 in total, 1 dispatch), and that second response is returned
unconditionally. -/
theorem C8_single_shot (llm : List Msg → LLMResponse)
    (funcs : String → Option (Json → Json)) (msgs : List Msg)
    (tc : LLMToolCall) (rest : List LLMToolCall) (args : Json) (f : Json → Json)
    (h1 : (llm msgs).tool_calls = tc :: rest)
    (h2 : Json.loads tc.arguments = some args)
    (h3 : funcs tc.name = some f) :
    lesson1Run llm funcs msgs =
      some (.msg (llm (msgs ++
          [Msg.assistant ⟨none, [⟨tc.name, Json.dumps args⟩]⟩,
           Msg.tool tc.name (Json.dumps (f args))])), 2, 1) := by
  unfold lesson1Run
  simp only [h1, h2, h3]

def c8llm : List Msg → LLMResponse := fun ms =>
  if ms.length = 2 then ⟨some "done", []⟩
  else ⟨none, [⟨"get_weather", Json.dumps (Json.num 3)⟩]⟩

def c8funcs : String → Option (Json → Json) := fun _ => some id

theorem C8_single_shot_witness :
    lesson1Run c8llm c8funcs [] = some (.msg ⟨some "done", []⟩, 2, 1) := by
  have h := C8_single_shot c8llm c8funcs [] ⟨"get_weather", Json.dumps (Json.num 3)⟩ []
    (Json.num 3) id rfl (Json.loads_dumps (Json.num 3)) rfl
  simpa [c8llm] using h

/-- Claim C9: the adapter surfaces the reasoning channel as message content
exactly when the content channel is empty and the reasoning channel is not;
nonempty content is used unchanged, whatever the reasoning channel holds. -/
theorem C9_thinking_fallback (content thinking : String) :
    (content = "" → thinking ≠ "" → resolveOllamaContent content thinking = some thinking) ∧
    (content ≠ "" → resolveOllamaContent content thinking = some content) := by
  constructor
  · intro h1 h2
    simp [resolveOllamaContent, h1, h2]
  · intro h1
    simp [resolveOllamaContent, h1]

theorem C9_thinking_fallback_witness :
    resolveOllamaContent "" "thinking trace" = some "thinking trace" ∧
    resolveOllamaContent "final" "thinking trace" = some "final" :=
  ⟨(C9_thinking_fallback "" "thinking trace").1 rfl (by decide),
   (C9_thinking_fallback "final" "thinking trace").2 (by decide)⟩

/-- Claim C10: `CheckCacheNode` classifies all-or-nothing: either all requested
cities are cached and none missing, or all are missing and none cached —
no response text yields a proper split — and `needs_fetch` is true exactly
when the missing list is nonempty. -/
theorem C10_all_or_nothing (response : String) (cities : List String) :
    (((checkCacheClassify response cities).1 = cities ∧
        (checkCacheClassify response cities).2.1 = []) ∨
     ((checkCacheClassify response cities).2.1 = cities ∧
        (checkCacheClassify response cities).1 = [])) ∧
    ((checkCacheClassify response cities).2.2 = true ↔
        (checkCacheClassify response cities).2.1 ≠ []) := by
  unfold checkCacheClassify
  cases hb : (checkCacheHasNoCache response || !checkCacheHasCache response) with
  | true => simp [hb, List.length_pos]
  | false => simp [hb]
